import Mathlib

/-!
Verification development for the `strict-comparisons` and `class-name-casing`
ESLint rules. The definitions below are a shallow embedding of the TypeScript
source (`strict-comparisons.ts`, `class-name-casing.ts`): each definition
mirrors one function of the source, with JavaScript numbers modelled as `Nat`
(and `Math.max` of an empty argument list, which yields `-Infinity` in
JavaScript, modelled as `none`).
-/

set_option autoImplicit false

/-- The `TypeKind` const enum of `strict-comparisons.ts`:
Any = 0, Number = 1, Enum = 2, String = 3, Boolean = 4,
NullOrUndefined = 5, Object = 6. -/
inductive TypeKind : Type where
  | Any
  | Number
  | Enum
  | String
  | Boolean
  | NullOrUndefined
  | Object
deriving DecidableEq, Repr

/-- The numeric value of each `TypeKind` enum member (its declaration order). -/
def rank : TypeKind → Nat
  | .Any => 0
  | .Number => 1
  | .Enum => 2
  | .String => 3
  | .Boolean => 4
  | .NullOrUndefined => 5
  | .Object => 6

/-- Reinterpret a JavaScript number as a `TypeKind` enum member, when in range. -/
def kindOfRank : Nat → Option TypeKind
  | 0 => some .Any
  | 1 => some .Number
  | 2 => some .Enum
  | 3 => some .String
  | 4 => some .Boolean
  | 5 => some .NullOrUndefined
  | 6 => some .Object
  | _ => none

/-- `Math.max.apply(Math, xs)` on a list of naturals: `none` models the
`-Infinity` result on an empty argument list. -/
def jsMathMax : List Nat → Option Nat
  | [] => none
  | x :: xs =>
    match jsMathMax xs with
    | none => some x
    | some m => some (max x m)

/-- `getStrictestKind` of the source: `Math.max` over the numeric enum values.
`none` models the out-of-range `-Infinity` produced on an empty array. -/
def getStrictestKind (types : List TypeKind) : Option TypeKind :=
  match jsMathMax (types.map rank) with
  | none => none
  | some m => kindOfRank m

/-- `arrayContainsKind` of the source: `types.some(type => type === typeToCheck)`. -/
def arrayContainsKind (types : List TypeKind) (typeToCheck : TypeKind) : Bool :=
  types.any (fun t => t == typeToCheck)

/-- Result of `getStrictestComparableType`, whose TypeScript type is
`TypeKind | undefined`: `kind k` is a genuine enum member, `incomparable` is
the explicit `return undefined`, and `outOfRange` is the junk value
(`-Infinity`) that would leak out of `Math.max` on an empty array. -/
inductive ResolveResult : Type where
  | kind (k : TypeKind)
  | incomparable
  | outOfRange
deriving DecidableEq, Repr

/-- `getStrictestComparableType` of the source. -/
def getStrictestComparableType (typesLeft typesRight : List TypeKind) : ResolveResult :=
  let overlappingTypes := typesLeft.filter (fun t => typesRight.contains t)
  if overlappingTypes.length > 0 then
    match getStrictestKind overlappingTypes with
    | some k => ResolveResult.kind k
    | none => ResolveResult.outOfRange
  else if arrayContainsKind typesLeft TypeKind.Any then
    match getStrictestKind typesRight with
    | some k => ResolveResult.kind k
    | none => ResolveResult.outOfRange
  else if arrayContainsKind typesRight TypeKind.Any then
    match getStrictestKind typesLeft with
    | some k => ResolveResult.kind k
    | none => ResolveResult.outOfRange
  else if (arrayContainsKind typesLeft TypeKind.NullOrUndefined &&
            arrayContainsKind typesRight TypeKind.Object) ||
          (arrayContainsKind typesRight TypeKind.NullOrUndefined &&
            arrayContainsKind typesLeft TypeKind.Object) then
    ResolveResult.kind TypeKind.Object
  else
    ResolveResult.incomparable

/-- Modelled from the spec (§4.2): the highest-rank Kind of a list, `none` on
the empty list. Used only on the spec side of refinement claims. -/
def specHighestRank : List TypeKind → Option TypeKind
  | [] => none
  | k :: ks =>
    match specHighestRank ks with
    | none => some k
    | some m => if rank m < rank k then some k else some m

/-- Modelled from the spec (§4.2): the comparability-resolution algorithm as
the spec words it, returning `some` governing Kind or `none` for
"incomparable". Used only as the spec side of claim C1. -/
def resolveSpec (leftKinds rightKinds : List TypeKind) : Option TypeKind :=
  let overlap := leftKinds.filter (fun k => rightKinds.contains k)
  if overlap ≠ [] then specHighestRank overlap
  else if leftKinds.contains TypeKind.Any then specHighestRank rightKinds
  else if rightKinds.contains TypeKind.Any then specHighestRank leftKinds
  else if (leftKinds.contains TypeKind.NullOrUndefined &&
            rightKinds.contains TypeKind.Object) ||
          (rightKinds.contains TypeKind.NullOrUndefined &&
            leftKinds.contains TypeKind.Object) then
    some TypeKind.Object
  else none

/-- Conversion relating the spec's `Kind | incomparable` result to the
source's `TypeKind | undefined` result type. -/
def ofOption : Option TypeKind → ResolveResult
  | some k => ResolveResult.kind k
  | none => ResolveResult.incomparable

namespace TypeFlags

/-- `ts.TypeFlags.Any` (TypeScript 3.x bit values). -/
def Any : Nat := 1

def String : Nat := 4

def Number : Nat := 8

def Boolean : Nat := 16

def StringLiteral : Nat := 128

def NumberLiteral : Nat := 256

def BooleanLiteral : Nat := 512

def Void : Nat := 16384

def Undefined : Nat := 32768

def Null : Nat := 65536

def Union : Nat := 1048576

/-- `ts.TypeFlags.BooleanLike = Boolean | BooleanLiteral`. -/
def BooleanLike : Nat := Boolean ||| BooleanLiteral

end TypeFlags

/-- Shallow model of `ts.Type`: its `flags` bitmask and, for union types, the
`types` member list. -/
inductive TsType : Type where
  | mk (flags : Nat) (types : List TsType)

def TsType.flags : TsType → Nat
  | .mk f _ => f

def TsType.types : TsType → List TsType
  | .mk _ ts => ts

/-- `isTypeFlagSet` of tsutils: `(type.flags & flags) !== 0`. -/
def isTypeFlagSet (type' : TsType) (flags : Nat) : Bool :=
  Nat.land type'.flags flags != 0

/-- `isUnionType` of tsutils: `(type.flags & ts.TypeFlags.Union) !== 0`. -/
def isUnionType (type' : TsType) : Bool :=
  Nat.land type'.flags TypeFlags.Union != 0

/-- `getKind` of the source: classify one type member. -/
def getKind (type' : TsType) : TypeKind :=
  if isTypeFlagSet type' (TypeFlags.String ||| TypeFlags.StringLiteral) then TypeKind.String
  else if isTypeFlagSet type' (TypeFlags.Number ||| TypeFlags.NumberLiteral) then TypeKind.Number
  else if isTypeFlagSet type' TypeFlags.BooleanLike then TypeKind.Boolean
  else if isTypeFlagSet type' (TypeFlags.Null ||| TypeFlags.Undefined ||| TypeFlags.Void) then
    TypeKind.NullOrUndefined
  else if isTypeFlagSet type' TypeFlags.Any then TypeKind.Any
  else TypeKind.Object

/-- First-occurrence deduplication, as `Array.from(new Set(xs))` in JavaScript. -/
def dedupAux : List TypeKind → List TypeKind → List TypeKind
  | [], _ => []
  | k :: ks, seen => if seen.contains k then dedupAux ks seen else k :: dedupAux ks (k :: seen)

def jsSetDedup (l : List TypeKind) : List TypeKind := dedupAux l []

/-- `getKinds` of the source. -/
def getKinds (type' : TsType) : List TypeKind :=
  if isUnionType type' then jsSetDedup (type'.types.map getKind)
  else [getKind type']

/-- Well-formedness of a `ts.Type` handed out by the TypeScript checker: a
type flagged as a union has at least one member (real union types have at
least two; one suffices here). -/
def wfType (t : TsType) : Prop := isUnionType t = true → t.types ≠ []

/-- The rule options of `strict-comparisons` (the `Config` interface). -/
structure Config where
  allowObjectEqualComparison : Bool
  allowStringOrderComparison : Bool
deriving DecidableEq, Repr

/-- A diagnostic reported through `context.report`: its `messageId` and data. -/
inductive Diagnostic : Type where
  | nonComparableTypes (typesLeft typesRight : String)
  | invalidTypeForOperator (comparator : String) (type' : String)
deriving DecidableEq, Repr

/-- The `typeNames` table of the source. -/
def typeName : TypeKind → String
  | .Any => "any"
  | .Number => "number"
  | .Enum => "enum"
  | .String => "string"
  | .Boolean => "boolean"
  | .NullOrUndefined => "null | undefined"
  | .Object => "object"

/-- `kinds.map(type => typeNames[type]).join(' | ')`. -/
def joinNames (kinds : List TypeKind) : String :=
  String.intercalate " | " (kinds.map typeName)

/-- `isEqualityOperator` of the source. -/
def isEqualityOperator (operator : String) : Bool :=
  if operator == "==" then true
  else if operator == "!=" then true
  else if operator == "===" then true
  else if operator == "!==" then true
  else false

/-- `isComparisonOperator` of the source. -/
def isComparisonOperator (operator : String) : Bool :=
  if isEqualityOperator operator then true
  else if operator == "<" then true
  else if operator == ">" then true
  else if operator == "<=" then true
  else if operator == ">=" then true
  else false

/-- The equality-operator switch of the source `BinaryExpression` handler. -/
def checkEquality (allowObjectEqualComparison : Bool) (operator : String)
    (operandKind : TypeKind) : List Diagnostic :=
  match operandKind with
  | .Any | .Number | .Enum | .String | .Boolean => []
  | .NullOrUndefined | .Object =>
    if allowObjectEqualComparison then []
    else [Diagnostic.invalidTypeForOperator operator (typeName operandKind)]

/-- The ordering-operator switch of the source `BinaryExpression` handler. -/
def checkOrdering (allowStringOrderComparison : Bool) (operator : String)
    (operandKind : TypeKind) : List Diagnostic :=
  match operandKind with
  | .Any | .Number => []
  | .String =>
    if allowStringOrderComparison then []
    else [Diagnostic.invalidTypeForOperator operator (typeName operandKind)]
  | .Enum | .Boolean | .NullOrUndefined | .Object =>
    [Diagnostic.invalidTypeForOperator operator (typeName operandKind)]

/-- The `BinaryExpression` handler of the source: the diagnostics emitted for
one binary expression, given the options, operator, and operand types. The
`outOfRange` arm models the switch-default report that a leaked `-Infinity`
operand kind would produce (its `typeNames` lookup is `undefined`). -/
def checkBinaryExpression (config : Config) (operator : String)
    (leftType rightType : TsType) : List Diagnostic :=
  if isComparisonOperator operator then
    let leftKinds := getKinds leftType
    let rightKinds := getKinds rightType
    match getStrictestComparableType leftKinds rightKinds with
    | ResolveResult.incomparable =>
      [Diagnostic.nonComparableTypes (joinNames leftKinds) (joinNames rightKinds)]
    | ResolveResult.outOfRange =>
      [Diagnostic.invalidTypeForOperator operator "undefined"]
    | ResolveResult.kind operandKind =>
      if isEqualityOperator operator then
        checkEquality config.allowObjectEqualComparison operator operandKind
      else
        checkOrdering config.allowStringOrderComparison operator operandKind
  else []

/-- Report payload of the casing rule: the friendly declaration-kind name and
the offending identifier. -/
structure Report where
  friendlyName : String
  name : String
deriving DecidableEq, Repr

/-- The node kinds visited by `class-name-casing`. -/
inductive ClassLikeType : Type where
  | ClassDeclaration
  | ClassExpression
  | TSInterfaceDeclaration
deriving DecidableEq, Repr

/-- A class-like declaration node: its kind, `abstract` modifier, and
optional bound identifier. -/
structure ClassLike where
  declType : ClassLikeType
  abstract : Bool
  id : Option String
deriving DecidableEq, Repr

/-- The `friendlyName` computation of the casing rule's `report` helper. -/
def friendlyName (decl : ClassLike) : String :=
  match decl.declType with
  | ClassLikeType.ClassDeclaration => if decl.abstract then "Abstract class" else "Class"
  | ClassLikeType.ClassExpression => if decl.abstract then "Abstract class" else "Class"
  | ClassLikeType.TSInterfaceDeclaration => "Interface"

def isUpperAlpha (c : Char) : Bool := 'A' ≤ c && c ≤ 'Z'

def isAlphaNum (c : Char) : Bool :=
  ('0' ≤ c && c ≤ '9') || ('A' ≤ c && c ≤ 'Z') || ('a' ≤ c && c ≤ 'z')

/-- `isPascalCase` of the source: the regular expression `^[A-Z][0-9A-Za-z]*$`. -/
def isPascalCase (name : String) : Bool :=
  match name.data with
  | [] => false
  | c :: cs => isUpperAlpha c && cs.all isAlphaNum

/-- The `'ClassDeclaration, TSInterfaceDeclaration, ClassExpression'` visitor:
reports a named declaration whose own name is not PascalCased. -/
def checkClassLike (node : ClassLike) : Option Report :=
  match node.id with
  | some name =>
    if isPascalCase name then none else some (Report.mk (friendlyName node) name)
  | none => none

/-- The `VariableDeclarator[init.type='ClassExpression']` visitor: reports a
variable bound to an anonymous class expression when the variable's name is
not PascalCased. -/
def checkVariableDeclarator (id : Option String) ( init : ClassLike) : Option Report :=
  if init.declType == ClassLikeType.ClassExpression then
    match id with
    | some name =>
      if init.id == none then
        if isPascalCase name then none else some (Report.mk (friendlyName init) name)
      else none
    | none => none
  else none

lemma kindOfRank_rank (k : TypeKind) : kindOfRank (rank k) = some k := by
  cases k <;> rfl

lemma jsMathMax_eq_none {l : List Nat} : jsMathMax l = none ↔ l = [] := by
  cases l with
  | nil => simp [jsMathMax]
  | cons x xs =>
    cases h : jsMathMax xs <;> simp [jsMathMax, h]

lemma jsMathMax_mem {l : List Nat} : ∀ {m : Nat}, jsMathMax l = some m → m ∈ l := by
  induction l with
  | nil => intro m h; simp [jsMathMax] at h
  | cons x xs ih =>
    intro m h
    cases hxs : jsMathMax xs with
    | none =>
      simp [jsMathMax, hxs] at h
      simp [h]
    | some m' =>
      simp [jsMathMax, hxs] at h
      by_cases hle : x ≤ m'
      · have hm : m = m' := by omega
        subst hm
        exact List.mem_cons_of_mem _ (ih hxs)
      · have hm : m = x := by omega
        simp [hm]

lemma jsMathMax_ub {l : List Nat} : ∀ {m : Nat}, jsMathMax l = some m →
    ∀ x ∈ l, x ≤ m := by
  induction l with
  | nil => intro m h; simp [jsMathMax] at h
  | cons x xs ih =>
    intro m h y hy
    cases hxs : jsMathMax xs with
    | none =>
      have hx : xs = [] := jsMathMax_eq_none.mp hxs
      subst hx
      simp [jsMathMax] at h
      simp at hy
      omega
    | some m' =>
      simp [jsMathMax, hxs] at h
      rcases List.mem_cons.mp hy with hy | hy
      · subst hy; omega
      · have := ih hxs y hy
        omega

lemma jsMathMax_congr {l₁ l₂ : List Nat} (h : ∀ x, x ∈ l₁ ↔ x ∈ l₂) :
    jsMathMax l₁ = jsMathMax l₂ := by
  cases h1 : jsMathMax l₁ with
  | none =>
    have : l₁ = [] := jsMathMax_eq_none.mp h1
    subst this
    have : l₂ = [] := by
      cases l₂ with
      | nil => rfl
      | cons y ys => exact absurd ((h y).mpr (by simp)) (by simp)
    simp [this, jsMathMax]
  | some m =>
    cases h2 : jsMathMax l₂ with
    | none =>
      have : l₂ = [] := jsMathMax_eq_none.mp h2
      subst this
      exact absurd ((h m).mp (jsMathMax_mem h1)) (by simp)
    | some m' =>
      have hm : m ∈ l₂ := (h m).mp (jsMathMax_mem h1)
      have hm' : m' ∈ l₁ := (h m').mpr (jsMathMax_mem h2)
      have := jsMathMax_ub h2 m hm
      have := jsMathMax_ub h1 m' hm'
      congr 1
      omega

lemma getStrictestKind_eq_spec (l : List TypeKind) :
    getStrictestKind l = specHighestRank l := by
  induction l with
  | nil => rfl
  | cons k ks ih =>
    cases hks : jsMathMax (ks.map rank) with
    | none =>
      have h1 : getStrictestKind ks = none := by simp [getStrictestKind, hks]
      have h2 : specHighestRank ks = none := by rw [← ih, h1]
      simp [getStrictestKind, jsMathMax, List.map_cons, hks, specHighestRank, h2,
        kindOfRank_rank]
    | some m =>
      have hmem : m ∈ ks.map rank := jsMathMax_mem hks
      obtain ⟨j, hj, hjm⟩ := List.mem_map.mp hmem
      have h1 : getStrictestKind ks = some j := by
        simp [getStrictestKind, hks, ← hjm, kindOfRank_rank]
      have h2 : specHighestRank ks = some j := by rw [← ih, h1]
      have lhs : getStrictestKind (k :: ks) = kindOfRank (max (rank k) m) := by
        simp [getStrictestKind, jsMathMax, List.map_cons, hks]
      rw [lhs]
      simp only [specHighestRank, h2]
      by_cases hlt : rank j < rank k
      · rw [if_pos hlt]
        have : max (rank k) m = rank k := by omega
        rw [this, kindOfRank_rank]
      · rw [if_neg hlt]
        have : max (rank k) m = rank j := by omega
        rw [this, kindOfRank_rank]

lemma specHighestRank_ne_none {l : List TypeKind} (h : l ≠ []) :
    ∃ k, specHighestRank l = some k := by
  cases l with
  | nil => exact absurd rfl h
  | cons x xs =>
    cases hxs : specHighestRank xs with
    | none => exact ⟨x, by simp [specHighestRank, hxs]⟩
    | some m =>
      by_cases hlt : rank m < rank x
      · exact ⟨x, by simp [specHighestRank, hxs, hlt]⟩
      · exact ⟨m, by simp [specHighestRank, hxs, hlt]⟩

lemma specHighestRank_mem {l : List TypeKind} {k : TypeKind}
    (h : specHighestRank l = some k) : k ∈ l := by
  induction l with
  | nil => simp [specHighestRank] at h
  | cons x xs ih =>
    cases hxs : specHighestRank xs with
    | none =>
      simp [specHighestRank, hxs] at h
      simp [h]
    | some m =>
      simp only [specHighestRank, hxs] at h
      by_cases hlt : rank m < rank x
      · rw [if_pos hlt] at h
        simp at h
        simp [h]
      · rw [if_neg hlt] at h
        simp at h
        exact List.mem_cons_of_mem _ (ih (by rw [hxs, h]))

lemma specHighestRank_ub {l : List TypeKind} : ∀ {k : TypeKind},
    specHighestRank l = some k → ∀ j ∈ l, rank j ≤ rank k := by
  induction l with
  | nil => intro k h; simp [specHighestRank] at h
  | cons x xs ih =>
    intro k h j hj
    cases hxs : specHighestRank xs with
    | none =>
      have hnil : xs = [] := by
        cases xs with
        | nil => rfl
        | cons y ys =>
          obtain ⟨m, hm⟩ := specHighestRank_ne_none (l := y :: ys) (by simp)
          rw [hxs] at hm; cases hm
      subst hnil
      simp [specHighestRank] at h
      simp at hj
      subst h; subst hj
      omega
    | some m =>
      simp only [specHighestRank, hxs] at h
      by_cases hlt : rank m < rank x
      · rw [if_pos hlt] at h
        have hk : x = k := by simpa using h
        subst hk
        rcases List.mem_cons.mp hj with hj | hj
        · subst hj; omega
        · have := ih hxs j hj
          omega
      · rw [if_neg hlt] at h
        have hk : m = k := by simpa using h
        subst hk
        rcases List.mem_cons.mp hj with hj | hj
        · subst hj; omega
        · exact ih hxs j hj

lemma arrayContainsKind_iff {l : List TypeKind} {k : TypeKind} :
    arrayContainsKind l k = true ↔ k ∈ l := by
  simp [arrayContainsKind, List.any_eq_true]

lemma contains_iff_mem {l : List TypeKind} {k : TypeKind} :
    l.contains k = true ↔ k ∈ l := by
  simp [List.contains]

lemma overlap_mem {L R : List TypeKind} {k : TypeKind} :
    k ∈ L.filter (fun t => R.contains t) ↔ k ∈ L ∧ k ∈ R := by
  simp [List.mem_filter, contains_iff_mem]

lemma getStrictestKind_mem {l : List TypeKind} {k : TypeKind}
    (h : getStrictestKind l = some k) : k ∈ l :=
  specHighestRank_mem (by rw [← getStrictestKind_eq_spec, h])

lemma resolve_eq_spec (L R : List TypeKind) (hL : L ≠ []) (hR : R ≠ []) :
    getStrictestComparableType L R = ofOption (resolveSpec L R) := by
  simp only [getStrictestComparableType, resolveSpec]
  by_cases hov : L.filter (fun t => R.contains t) = []
  · have hlen : ¬(L.filter (fun t => R.contains t)).length > 0 := by rw [hov]; simp
    have hne : ¬(L.filter (fun t => R.contains t) ≠ []) := by rw [hov]; simp
    rw [if_neg hlen, if_neg hne]
    by_cases hAL : TypeKind.Any ∈ L
    · have e1 : arrayContainsKind L TypeKind.Any = true := arrayContainsKind_iff.mpr hAL
      have e2 : L.contains TypeKind.Any = true := contains_iff_mem.mpr hAL
      rw [if_pos e1, if_pos e2]
      obtain ⟨k, hk⟩ := specHighestRank_ne_none hR
      rw [getStrictestKind_eq_spec, hk]
      rfl
    · have e1 : ¬(arrayContainsKind L TypeKind.Any = true) := by
        simp only [arrayContainsKind_iff]; exact hAL
      have e2 : ¬(L.contains TypeKind.Any = true) := by
        simp only [contains_iff_mem]; exact hAL
      rw [if_neg e1, if_neg e2]
      by_cases hAR : TypeKind.Any ∈ R
      · have f1 : arrayContainsKind R TypeKind.Any = true := arrayContainsKind_iff.mpr hAR
        have f2 : R.contains TypeKind.Any = true := contains_iff_mem.mpr hAR
        rw [if_pos f1, if_pos f2]
        obtain ⟨k, hk⟩ := specHighestRank_ne_none hL
        rw [getStrictestKind_eq_spec, hk]
        rfl
      · have f1 : ¬(arrayContainsKind R TypeKind.Any = true) := by
          simp only [arrayContainsKind_iff]; exact hAR
        have f2 : ¬(R.contains TypeKind.Any = true) := by
          simp only [contains_iff_mem]; exact hAR
        rw [if_neg f1, if_neg f2]
        by_cases hNO : (TypeKind.NullOrUndefined ∈ L ∧ TypeKind.Object ∈ R) ∨
            (TypeKind.NullOrUndefined ∈ R ∧ TypeKind.Object ∈ L)
        · have g1 : ((arrayContainsKind L TypeKind.NullOrUndefined &&
              arrayContainsKind R TypeKind.Object) ||
              (arrayContainsKind R TypeKind.NullOrUndefined &&
              arrayContainsKind L TypeKind.Object)) = true := by
            simp only [Bool.or_eq_true, Bool.and_eq_true, arrayContainsKind_iff]
            exact hNO
          have g2 : ((L.contains TypeKind.NullOrUndefined &&
              R.contains TypeKind.Object) ||
              (R.contains TypeKind.NullOrUndefined &&
              L.contains TypeKind.Object)) = true := by
            simp only [Bool.or_eq_true, Bool.and_eq_true, contains_iff_mem]
            exact hNO
          rw [if_pos g1, if_pos g2]
          rfl
        · have g1 : ¬(((arrayContainsKind L TypeKind.NullOrUndefined &&
              arrayContainsKind R TypeKind.Object) ||
              (arrayContainsKind R TypeKind.NullOrUndefined &&
              arrayContainsKind L TypeKind.Object)) = true) := by
            simp only [Bool.or_eq_true, Bool.and_eq_true, arrayContainsKind_iff]
            exact hNO
          have g2 : ¬(((L.contains TypeKind.NullOrUndefined &&
              R.contains TypeKind.Object) ||
              (R.contains TypeKind.NullOrUndefined &&
              L.contains TypeKind.Object)) = true) := by
            simp only [Bool.or_eq_true, Bool.and_eq_true, contains_iff_mem]
            exact hNO
          rw [if_neg g1, if_neg g2]
          rfl
  · have hlen : (L.filter (fun t => R.contains t)).length > 0 := by
      cases hcase : L.filter (fun t => R.contains t) with
      | nil => exact absurd hcase hov
      | cons a b => simp [hcase]
    rw [if_pos hlen, if_pos hov]
    obtain ⟨k, hk⟩ := specHighestRank_ne_none hov
    rw [getStrictestKind_eq_spec, hk]
    rfl

lemma resolveSpec_mem {L R : List TypeKind} {k : TypeKind}
    (h : resolveSpec L R = some k) : k ∈ L ∨ k ∈ R := by
  simp only [resolveSpec] at h
  by_cases hov : L.filter (fun t => R.contains t) ≠ []
  · rw [if_pos hov] at h
    exact Or.inl (overlap_mem.mp (specHighestRank_mem h)).1
  · rw [if_neg hov] at h
    by_cases hAL : L.contains TypeKind.Any = true
    · rw [if_pos hAL] at h
      exact Or.inr (specHighestRank_mem h)
    · rw [if_neg hAL] at h
      by_cases hAR : R.contains TypeKind.Any = true
      · rw [if_pos hAR] at h
        exact Or.inl (specHighestRank_mem h)
      · rw [if_neg hAR] at h
        by_cases hNO : ((L.contains TypeKind.NullOrUndefined &&
            R.contains TypeKind.Object) ||
            (R.contains TypeKind.NullOrUndefined &&
            L.contains TypeKind.Object)) = true
        · rw [if_pos hNO] at h
          have hk : TypeKind.Object = k := by simpa using h
          subst hk
          simp only [Bool.or_eq_true, Bool.and_eq_true, contains_iff_mem] at hNO
          rcases hNO with ⟨_, hObj⟩ | ⟨_, hObj⟩
          · exact Or.inr hObj
          · exact Or.inl hObj
        · rw [if_neg hNO] at h
          simp at h

/-- C1: for every pair of non-empty operand kind-sets, `getStrictestComparableType`
follows exactly the spec's algorithm (`resolveSpec`): if the intersection is
non-empty it returns its highest-rank Kind; otherwise an `Any` side yields the
other side's highest-rank Kind; otherwise a NullOrUndefined/Object pairing
(either direction) yields Object; otherwise the incomparable sentinel. -/
theorem claim_C1 (L R : List TypeKind) (hL : L ≠ []) (hR : R ≠ []) :
    getStrictestComparableType L R = ofOption (resolveSpec L R) :=
  resolve_eq_spec L R hL hR

theorem claim_C1_witness :
    ([TypeKind.NullOrUndefined] ≠ ([] : List TypeKind)) ∧
    ([TypeKind.Object, TypeKind.String] ≠ ([] : List TypeKind)) ∧
    getStrictestComparableType [TypeKind.NullOrUndefined] [TypeKind.Object, TypeKind.String]
      = ofOption (resolveSpec [TypeKind.NullOrUndefined] [TypeKind.Object, TypeKind.String]) :=
  ⟨by decide, by decide, claim_C1 _ _ (by decide) (by decide)⟩

/-- C3: comparability resolution is symmetric,
`getStrictestComparableType L R = getStrictestComparableType R L`, for all inputs. -/
theorem claim_C3 (L R : List TypeKind) :
    getStrictestComparableType L R = getStrictestComparableType R L := by
  simp only [getStrictestComparableType]
  have hswap : ∀ (a : TypeKind), a ∈ L.filter (fun t => R.contains t) →
      a ∈ R.filter (fun t => L.contains t) := by
    intro a ha
    exact overlap_mem.mpr (And.comm.mp (overlap_mem.mp ha))
  have hswap' : ∀ (a : TypeKind), a ∈ R.filter (fun t => L.contains t) →
      a ∈ L.filter (fun t => R.contains t) := by
    intro a ha
    exact overlap_mem.mpr (And.comm.mp (overlap_mem.mp ha))
  have hmax : getStrictestKind (L.filter (fun t => R.contains t)) =
      getStrictestKind (R.filter (fun t => L.contains t)) := by
    simp only [getStrictestKind]
    have hc : jsMathMax ((L.filter (fun t => R.contains t)).map rank) =
        jsMathMax ((R.filter (fun t => L.contains t)).map rank) := by
      apply jsMathMax_congr
      intro x
      simp only [List.mem_map]
      constructor
      · rintro ⟨j, hj, hjx⟩
        exact ⟨j, hswap j hj, hjx⟩
      · rintro ⟨j, hj, hjx⟩
        exact ⟨j, hswap' j hj, hjx⟩
    rw [hc]
  have hlen : (L.filter (fun t => R.contains t)).length > 0 ↔
      (R.filter (fun t => L.contains t)).length > 0 := by
    simp only [gt_iff_lt, List.length_pos]
    constructor
    · intro hne
      cases hcase : L.filter (fun t => R.contains t) with
      | nil => exact absurd hcase hne
      | cons a b =>
        intro hnil
        have := hswap a (by rw [hcase]; simp)
        rw [hnil] at this
        simp at this
    · intro hne
      cases hcase : R.filter (fun t => L.contains t) with
      | nil => exact absurd hcase hne
      | cons a b =>
        intro hnil
        have := hswap' a (by rw [hcase]; simp)
        rw [hnil] at this
        simp at this
  by_cases h1 : (L.filter (fun t => R.contains t)).length > 0
  · rw [if_pos h1, if_pos (hlen.mp h1), hmax]
  · rw [if_neg h1, if_neg (fun hc => h1 (hlen.mpr hc))]
    by_cases hAL : arrayContainsKind L TypeKind.Any = true
    · by_cases hAR : arrayContainsKind R TypeKind.Any = true
      · exfalso
        apply h1
        simp only [gt_iff_lt, List.length_pos]
        intro hnil
        have : TypeKind.Any ∈ L.filter (fun t => R.contains t) :=
          overlap_mem.mpr ⟨arrayContainsKind_iff.mp hAL, arrayContainsKind_iff.mp hAR⟩
        rw [hnil] at this
        simp at this
      · rw [if_pos hAL, if_neg hAR, if_pos hAL]
    · rw [if_neg hAL]
      by_cases hAR : arrayContainsKind R TypeKind.Any = true
      · rw [if_pos hAR, if_pos hAR]
      · rw [if_neg hAR, if_neg hAR, if_neg hAL]
        by_cases hNO : ((arrayContainsKind L TypeKind.NullOrUndefined &&
            arrayContainsKind R TypeKind.Object) ||
            (arrayContainsKind R TypeKind.NullOrUndefined &&
            arrayContainsKind L TypeKind.Object)) = true
        · rw [if_pos hNO, if_pos (by rw [Bool.or_comm] at hNO; exact hNO)]
        · rw [if_neg hNO, if_neg (by rw [Bool.or_comm]; exact hNO)]

/-- C9: with both operand kind-sets non-empty, `getStrictestKind` is never
applied to an empty array inside the resolver, so the result is a genuine
`TypeKind` or the incomparable sentinel, never the out-of-range value that
`Math.max` yields on an empty array. -/
theorem claim_C9 (L R : List TypeKind) (hL : L ≠ []) (hR : R ≠ []) :
    getStrictestComparableType L R ≠ ResolveResult.outOfRange ∧
    ((∃ k, getStrictestComparableType L R = ResolveResult.kind k) ∨
      getStrictestComparableType L R = ResolveResult.incomparable) := by
  rw [resolve_eq_spec L R hL hR]
  cases hres : resolveSpec L R with
  | none => exact ⟨by simp [ofOption], Or.inr rfl⟩
  | some k => exact ⟨by simp [ofOption], Or.inl ⟨k, rfl⟩⟩

theorem claim_C9_witness :
    ([TypeKind.Boolean] ≠ ([] : List TypeKind)) ∧
    ([TypeKind.Number] ≠ ([] : List TypeKind)) ∧
    getStrictestComparableType [TypeKind.Boolean] [TypeKind.Number] ≠
      ResolveResult.outOfRange :=
  ⟨by decide, by decide, (claim_C9 [TypeKind.Boolean] [TypeKind.Number]
    (by decide) (by decide)).1⟩

/-- C10: whenever the resolver returns a governing Kind on non-empty operand
kind-sets, that Kind is a member of the union of the two sets. -/
theorem claim_C10 (L R : List TypeKind) (hL : L ≠ []) (hR : R ≠ []) (k : TypeKind)
    (h : getStrictestComparableType L R = ResolveResult.kind k) : k ∈ L ∨ k ∈ R := by
  rw [resolve_eq_spec L R hL hR] at h
  cases hres : resolveSpec L R with
  | none => rw [hres] at h; simp [ofOption] at h
  | some j =>
    rw [hres] at h
    have hjk : j = k := by simpa [ofOption] using h
    subst hjk
    exact resolveSpec_mem hres

theorem claim_C10_witness :
    TypeKind.Object ∈ [TypeKind.NullOrUndefined] ∨
      TypeKind.Object ∈ [TypeKind.Object, TypeKind.Boolean] :=
  claim_C10 [TypeKind.NullOrUndefined] [TypeKind.Object, TypeKind.Boolean]
    (by decide) (by decide) TypeKind.Object (by decide)

/-- C4: `getKind` classifies every type by testing the rules in fixed
priority order, first match winning (string-like, numeric-like, boolean-like,
null/undefined/void, any, otherwise Object), and never returns `Enum`. -/
theorem claim_C4 (t : TsType) :
    (isTypeFlagSet t (TypeFlags.String ||| TypeFlags.StringLiteral) = true →
      getKind t = TypeKind.String)
    ∧ (isTypeFlagSet t (TypeFlags.String ||| TypeFlags.StringLiteral) = false →
        isTypeFlagSet t (TypeFlags.Number ||| TypeFlags.NumberLiteral) = true →
        getKind t = TypeKind.Number)
    ∧ (isTypeFlagSet t (TypeFlags.String ||| TypeFlags.StringLiteral) = false →
        isTypeFlagSet t (TypeFlags.Number ||| TypeFlags.NumberLiteral) = false →
        isTypeFlagSet t TypeFlags.BooleanLike = true →
        getKind t = TypeKind.Boolean)
    ∧ (isTypeFlagSet t (TypeFlags.String ||| TypeFlags.StringLiteral) = false →
        isTypeFlagSet t (TypeFlags.Number ||| TypeFlags.NumberLiteral) = false →
        isTypeFlagSet t TypeFlags.BooleanLike = false →
        isTypeFlagSet t (TypeFlags.Null ||| TypeFlags.Undefined ||| TypeFlags.Void) = true →
        getKind t = TypeKind.NullOrUndefined)
    ∧ (isTypeFlagSet t (TypeFlags.String ||| TypeFlags.StringLiteral) = false →
        isTypeFlagSet t (TypeFlags.Number ||| TypeFlags.NumberLiteral) = false →
        isTypeFlagSet t TypeFlags.BooleanLike = false →
        isTypeFlagSet t (TypeFlags.Null ||| TypeFlags.Undefined ||| TypeFlags.Void) = false →
        isTypeFlagSet t TypeFlags.Any = true →
        getKind t = TypeKind.Any)
    ∧ (isTypeFlagSet t (TypeFlags.String ||| TypeFlags.StringLiteral) = false →
        isTypeFlagSet t (TypeFlags.Number ||| TypeFlags.NumberLiteral) = false →
        isTypeFlagSet t TypeFlags.BooleanLike = false →
        isTypeFlagSet t (TypeFlags.Null ||| TypeFlags.Undefined ||| TypeFlags.Void) = false →
        isTypeFlagSet t TypeFlags.Any = false →
        getKind t = TypeKind.Object)
    ∧ getKind t ≠ TypeKind.Enum := by
  by_cases h1 : isTypeFlagSet t (TypeFlags.String ||| TypeFlags.StringLiteral) = true <;>
  by_cases h2 : isTypeFlagSet t (TypeFlags.Number ||| TypeFlags.NumberLiteral) = true <;>
  by_cases h3 : isTypeFlagSet t TypeFlags.BooleanLike = true <;>
  by_cases h4 : isTypeFlagSet t (TypeFlags.Null ||| TypeFlags.Undefined ||| TypeFlags.Void) = true <;>
  by_cases h5 : isTypeFlagSet t TypeFlags.Any = true <;>
    simp [getKind, h1, h2, h3, h4, h5, Bool.eq_false_iff]

theorem claim_C4_witness :
    isTypeFlagSet (TsType.mk 128 []) (TypeFlags.String ||| TypeFlags.StringLiteral) = true ∧
    getKind (TsType.mk 128 []) = TypeKind.String :=
  ⟨by decide, (claim_C4 (TsType.mk 128 [])).1 (by decide)⟩

/-- C5: `getKinds` is total and non-empty on well-formed types: a union
yields its members' classifications deduplicated, a non-union a singleton,
and no well-formed input yields an empty kind-set. -/
theorem claim_C5 (t : TsType) (h : wfType t) :
    getKinds t ≠ []
    ∧ (isUnionType t = true → getKinds t = jsSetDedup (t.types.map getKind))
    ∧ (isUnionType t = false → getKinds t = [getKind t]) := by
  by_cases hu : isUnionType t = true
  · refine ⟨?_, fun _ => by simp [getKinds, hu], fun hf => by rw [hu] at hf; cases hf⟩
    have hne := h hu
    simp only [getKinds, hu, if_true]
    cases hts : t.types with
    | nil => exact absurd hts hne
    | cons a b =>
      simp [jsSetDedup, dedupAux]
  · have hu' : isUnionType t = false := by
      cases hb : isUnionType t
      · rfl
      · exact absurd hb hu
    refine ⟨?_, fun hf => absurd hf hu, fun _ => by simp [getKinds, hu']⟩
    simp [getKinds, hu']

theorem claim_C5_witness :
    getKinds (TsType.mk 1048576 [TsType.mk 4 [], TsType.mk 8 []]) ≠ [] :=
  (claim_C5 (TsType.mk 1048576 [TsType.mk 4 [], TsType.mk 8 []])
    (by intro _h; simp [TsType.types])).1

/-- C2: the operator policy matches the spec's decision tables. The equality
class allows Any, Number, Enum, String and Boolean, and rejects
NullOrUndefined and Object unless `allowObjectEqualComparison`; the ordering
class allows Any and Number, rejects String unless
`allowStringOrderComparison`, and rejects Boolean, Enum, NullOrUndefined and
Object under every configuration. -/
theorem claim_C2 (cfg : Config) (op : String) (k : TypeKind) :
    (checkEquality cfg.allowObjectEqualComparison op k = [] ↔
      (k = TypeKind.Any ∨ k = TypeKind.Number ∨ k = TypeKind.Enum ∨
        k = TypeKind.String ∨ k = TypeKind.Boolean ∨
        cfg.allowObjectEqualComparison = true))
    ∧ (checkOrdering cfg.allowStringOrderComparison op k = [] ↔
      (k = TypeKind.Any ∨ k = TypeKind.Number ∨
        (k = TypeKind.String ∧ cfg.allowStringOrderComparison = true))) := by
  obtain ⟨b1, b2⟩ := cfg
  cases k <;> cases b1 <;> cases b2 <;> simp [checkEquality, checkOrdering]

lemma checkEquality_cases (b : Bool) (op : String) (k : TypeKind) :
    checkEquality b op k = [] ∨
      checkEquality b op k = [Diagnostic.invalidTypeForOperator op (typeName k)] := by
  cases k <;> cases b <;> simp [checkEquality]

lemma checkOrdering_cases (b : Bool) (op : String) (k : TypeKind) :
    checkOrdering b op k = [] ∨
      checkOrdering b op k = [Diagnostic.invalidTypeForOperator op (typeName k)] := by
  cases k <;> cases b <;> simp [checkOrdering]

lemma getKinds_ne_nil {t : TsType} (h : wfType t) : getKinds t ≠ [] := by
  by_cases hu : isUnionType t = true
  · have hne := h hu
    simp only [getKinds, hu, if_true]
    cases hts : t.types with
    | nil => exact absurd hts hne
    | cons a b => simp [jsSetDedup, dedupAux]
  · have hu' : isUnionType t = false := by
      cases hb : isUnionType t
      · rfl
      · exact absurd hb hu
    simp [getKinds, hu']

/-- C6: on well-formed operand types, the evaluator emits at most one
diagnostic; when resolution is incomparable it emits exactly the
`nonComparableTypes` diagnostic carrying the joined kind names of each side
and never consults the operator policy; when resolution yields a governing
kind the emitted list is exactly what the operator-class policy dictates
(empty when allowed, a single `invalidTypeForOperator` carrying the operator
and the kind's name when rejected); and the out-of-range resolver result is
unreachable. -/
theorem claim_C6 (cfg : Config) (op : String) (tl tr : TsType)
    (hl : wfType tl) (hr : wfType tr) :
    (checkBinaryExpression cfg op tl tr).length ≤ 1
    ∧ (isComparisonOperator op = true →
        (getStrictestComparableType (getKinds tl) (getKinds tr) ≠ ResolveResult.outOfRange)
        ∧ (getStrictestComparableType (getKinds tl) (getKinds tr) = ResolveResult.incomparable →
            checkBinaryExpression cfg op tl tr =
              [Diagnostic.nonComparableTypes (joinNames (getKinds tl)) (joinNames (getKinds tr))])
        ∧ (∀ k, getStrictestComparableType (getKinds tl) (getKinds tr) = ResolveResult.kind k →
            (checkBinaryExpression cfg op tl tr =
                (if isEqualityOperator op then
                  checkEquality cfg.allowObjectEqualComparison op k
                else
                  checkOrdering cfg.allowStringOrderComparison op k))
            ∧ (checkBinaryExpression cfg op tl tr = [] ∨
                checkBinaryExpression cfg op tl tr =
                  [Diagnostic.invalidTypeForOperator op (typeName k)]))) := by
  constructor
  · by_cases hc : isComparisonOperator op = true
    · simp only [checkBinaryExpression, hc, if_true]
      cases hres : getStrictestComparableType (getKinds tl) (getKinds tr) with
      | incomparable => simp
      | outOfRange => simp
      | kind k =>
        by_cases he : isEqualityOperator op = true
        · rcases checkEquality_cases cfg.allowObjectEqualComparison op k with h | h <;>
            simp [he, h]
        · have he' : isEqualityOperator op = false := by
            cases hb : isEqualityOperator op
            · rfl
            · exact absurd hb he
          rcases checkOrdering_cases cfg.allowStringOrderComparison op k with h | h <;>
            simp [he', h]
    · have hc' : isComparisonOperator op = false := by
        cases hb : isComparisonOperator op
        · rfl
        · exact absurd hb hc
      simp [checkBinaryExpression, hc']
  · intro hc
    refine ⟨?_, ?_, ?_⟩
    · rw [resolve_eq_spec (getKinds tl) (getKinds tr) (getKinds_ne_nil hl)
        (getKinds_ne_nil hr)]
      cases resolveSpec (getKinds tl) (getKinds tr) <;> simp [ofOption]
    · intro hres
      simp [checkBinaryExpression, hc, hres]
    · intro k hres
      constructor
      · simp [checkBinaryExpression, hc, hres]
      · by_cases he : isEqualityOperator op = true
        · have heq : checkBinaryExpression cfg op tl tr =
              checkEquality cfg.allowObjectEqualComparison op k := by
            simp [checkBinaryExpression, hc, hres, he]
          rw [heq]
          exact checkEquality_cases _ op k
        · have heq : checkBinaryExpression cfg op tl tr =
              checkOrdering cfg.allowStringOrderComparison op k := by
            simp [checkBinaryExpression, hc, hres, he]
          rw [heq]
          exact checkOrdering_cases _ op k

theorem claim_C6_witness :
    checkBinaryExpression (Config.mk false false) "==" (TsType.mk 8 []) (TsType.mk 4 []) =
      [Diagnostic.nonComparableTypes "number" "string"] := by
  have h := ((claim_C6 (Config.mk false false) "==" (TsType.mk 8 []) (TsType.mk 4 [])
    (by intro hb; exact absurd hb (by decide))
    (by intro hb; exact absurd hb (by decide))).2 (by decide)).2.1 (by decide)
  rw [h]
  rfl

/-- C7: a binary expression whose operator is none of the eight comparison
operators is not evaluated at all: no diagnostic is emitted for any operand
types and any configuration. -/
theorem claim_C7 (cfg : Config) (op : String) (tl tr : TsType)
    (h1 : op ≠ "==") (h2 : op ≠ "!=") (h3 : op ≠ "===") (h4 : op ≠ "!==")
    (h5 : op ≠ "<") (h6 : op ≠ ">") (h7 : op ≠ "<=") (h8 : op ≠ ">=") :
    isComparisonOperator op = false ∧ checkBinaryExpression cfg op tl tr = [] := by
  have hc : isComparisonOperator op = false := by
    simp [isComparisonOperator, isEqualityOperator, beq_iff_eq,
      h1, h2, h3, h4, h5, h6, h7, h8]
  exact ⟨hc, by simp [checkBinaryExpression, hc]⟩

theorem claim_C7_witness :
    isComparisonOperator "+" = false ∧
    checkBinaryExpression (Config.mk false false) "+" (TsType.mk 8 []) (TsType.mk 8 []) = [] :=
  claim_C7 (Config.mk false false) "+" (TsType.mk 8 []) (TsType.mk 8 [])
    (by decide) (by decide) (by decide) (by decide)
    (by decide) (by decide) (by decide) (by decide)

/-- C8: the casing rule reports a declaration exactly when its bound
identifier fails `^[A-Z][0-9A-Za-z]*$`: named class/interface declarations
are checked against their own name, a variable initialized with an anonymous
class expression against the variable's name, anonymous class expressions
with no bound identifier anywhere are never reported, and every report
carries the friendly declaration-kind name and the offending identifier. -/
theorem claim_C8 :
    (∀ (node : ClassLike) (n : String), node.id = some n →
      checkClassLike node =
        (if isPascalCase n then none else some (Report.mk (friendlyName node) n)))
    ∧ (∀ node : ClassLike, node.id = none → checkClassLike node = none)
    ∧ (∀ (v : Option String) (n : String) ( init : ClassLike), v = some n →
        init.declType = ClassLikeType.ClassExpression → init.id = none →
        checkVariableDeclarator v init =
          (if isPascalCase n then none else some (Report.mk (friendlyName init) n)))
    ∧ (∀ (v : Option String) ( init : ClassLike),
        init.id ≠ none ∨ v = none → checkVariableDeclarator v init = none) := by
  refine ⟨?_, ?_, ?_, ?_⟩
  · intro node n hn
    simp [checkClassLike, hn]
  · intro node hn
    simp [checkClassLike, hn]
  · intro v n init hv hty hid
    subst hv
    simp [checkVariableDeclarator, hty, hid]
  · intro v init h
    rcases h with h | h
    · by_cases hty : init.declType = ClassLikeType.ClassExpression
      · cases v with
        | none => simp [checkVariableDeclarator, hty]
        | some n => simp [checkVariableDeclarator, hty, h]
      · simp [checkVariableDeclarator, hty]
    · subst h
      simp [checkVariableDeclarator]

theorem claim_C8_witness :
    checkClassLike (ClassLike.mk ClassLikeType.ClassDeclaration false (some "foo")) =
      some (Report.mk "Class" "foo") := by
  have h := claim_C8.1 (ClassLike.mk ClassLikeType.ClassDeclaration false (some "foo"))
    "foo" rfl
  rw [h]
  decide
